import Mathlib

/-!
Shallow embedding of `dockrun.go` from `matthewmueller/go-dockrun`.

The package orchestrates a single Docker container used as a test fixture:
a fluent `Container` spec (`image`, `name`, exposure strings), `Run` which
inspects the image, parses exposures, creates, starts and re-inspects the
container, and a `Runner` offering `Logs`, `Wait` (exit wait), `Stop`,
`Kill` and `Check` (readiness probe with exponential backoff).

The external Docker engine (package `go-dockerclient`), the HTTP/TCP
network and the URL parser are modelled as records of oracle functions;
every operation of the package is translated into a pure Lean function
over those oracles, additionally returning a trace of the engine calls it
performed so that claims about which operations are invoked (and in which
order, with which options) can be stated. Go `error` values are modelled
by `GoErr`; a Go function returning `error` becomes `Option GoErr`
(`none` = nil), one returning `(T, error)` becomes `Except GoErr T`.
-/

set_option autoImplicit false

namespace Dockrun

/-- Go `error` values. Errors coming back from external collaborators
(the engine client, `url.Parse`, `ctx.Err()`, `Body.Close`) are `engine`
values; errors created inside the package by `fmt.Errorf` are `errorf`
values, so that "distinct from a transport error" is expressible. -/
inductive GoErr where
  | engine (msg : String)
  | errorf (msg : String)
  deriving DecidableEq, Repr

/-- `docker.PortBinding`: the fields `Run` sets (`HostIP`, `HostPort`). -/
structure PortBinding where
  hostIP : String
  hostPort : String
  deriving DecidableEq, Repr

/-- `docker.Container` as used by the package: only its identifier is ever
read (`container.ID`), so the descriptor is modelled by that field. -/
structure DockerContainer where
  id : String
  deriving DecidableEq, Repr

/-- `docker.Config`: the fields `Run` sets. `ExposedPorts` is a
`map[docker.Port]struct{}`, modelled as a duplicate-free list of keys in
insertion order. -/
structure DockerConfig where
  image : String
  cmd : List String
  exposedPorts : List String
  deriving DecidableEq, Repr

/-- `docker.HostConfig`: the fields `Run` sets. `PortBindings` is a
`map[docker.Port][]docker.PortBinding`, modelled as an association list
keyed in insertion order. -/
structure HostConfig where
  portBindings : List (String × List PortBinding)
  capAdd : List String
  deriving DecidableEq, Repr

/-- `docker.CreateContainerOptions` as built by `Run`. -/
structure CreateContainerOptions where
  name : String
  config : DockerConfig
  hostConfig : HostConfig
  deriving DecidableEq, Repr

/-- `docker.RemoveContainerOptions` as built by `Stop` and `Kill`. -/
structure RemoveContainerOptions where
  id : String
  removeVolumes : Bool
  force : Bool
  deriving DecidableEq, Repr

/-- `docker.LogsOptions` as built by `Logs`; the two `io.Writer` sinks are
opaque handles. -/
structure LogsOptions where
  follow : Bool
  container : String
  stdout : Bool
  stderr : Bool
  outputStream : Nat
  errorStream : Nat
  deriving DecidableEq, Repr

/-- The Docker engine client (`*docker.Client`), as the record of the
operations the package invokes on it. Each operation is an oracle fixed
in advance; contexts passed through to the engine are not modelled
separately (each oracle stands for the call already bound to the caller's
context). -/
structure Engine where
  inspectImage : String → Option GoErr
  createContainer : CreateContainerOptions → Except GoErr DockerContainer
  startContainer : String → Option GoErr
  inspectContainer : String → Except GoErr DockerContainer
  waitContainer : String → Except GoErr Int
  stopContainer : String → Nat → Option GoErr
  killContainer : String → Option GoErr
  removeContainer : RemoveContainerOptions → Option GoErr
  logs : LogsOptions → Option GoErr

/-- The `Container` builder struct: `image`, `name` and the accumulated
exposure strings (the `client` handle is passed separately to `Run`). -/
structure Container where
  image : String
  name : String
  expose : List String
  deriving DecidableEq, Repr

/-- The `Client` struct; its only field is the engine handle, which the
embedding passes explicitly to the operations that use it. -/
structure Client where
  deriving DecidableEq, Repr

/-- The `Runner` struct: the descriptor returned by `InspectContainer`
at creation (the `client` handle again passed explicitly). -/
structure Runner where
  container : DockerContainer
  deriving DecidableEq, Repr

/-- `Client.Container image name` — builds a fresh spec with no exposures
(`expose` is the zero value `nil`). -/
def Client.Container (_ : Client) (image : String) (name : String) : Container :=
  { image := image, name := name, expose := [] }

/-- `Container.Expose portmap` — `c.expose = append(c.expose, portmap)`,
returning the (updated) spec for chaining. -/
def Container.Expose (c : Container) (portmap : String) : Container :=
  { c with expose := c.expose ++ [portmap] }

/-- Go `strings.Split(s, sep)` for a single-character separator (the
package only splits on `":"`): the list of substrings between occurrences
of `sep`, so `split ':' "" = [""]` and `split ':' "a:b" = ["a", "b"]`. -/
def stringsSplitCh (sep : Char) : List Char → List (List Char)
  | [] => [[]]
  | c :: cs =>
    if c = sep then
      [] :: stringsSplitCh sep cs
    else
      match stringsSplitCh sep cs with
      | [] => [[c]]
      | g :: gs => (c :: g) :: gs

/-- `strings.Split(s, ":")` on Go strings. -/
def stringsSplitColon (s : String) : List String :=
  (stringsSplitCh ':' s.data).map String.mk

/-- Insertion into the `map[docker.Port]struct{}` set `exposedPorts`. -/
def setInsert (m : List String) (k : String) : List String :=
  if k ∈ m then m else m ++ [k]

/-- Assignment `m[k] = v` on the `map[docker.Port][]docker.PortBinding`
association list `portBindings`. -/
def mapAssign (m : List (String × List PortBinding)) (k : String)
    (v : List PortBinding) : List (String × List PortBinding) :=
  if k ∈ m.map Prod.fst then
    m.map fun p => if p.1 = k then (k, v) else p
  else
    m ++ [(k, v)]

/-- One iteration of the exposure-parsing loop in `Run`: split `port` on
`":"`; a single segment only marks `port` itself exposed; otherwise
segment 1 is the container port, exposed and bound to host IP `"0.0.0.0"`
on host port segment 0. (`strings.Split` never returns an empty slice for
a non-empty separator, so the `[]` branch is unreachable.) -/
def parseOne (acc : List String × List (String × List PortBinding))
    (port : String) : List String × List (String × List PortBinding) :=
  match stringsSplitColon port with
  | [_] => (setInsert acc.1 port, acc.2)
  | b0 :: b1 :: _ =>
    (setInsert acc.1 b1, mapAssign acc.2 b1 [⟨"0.0.0.0", b0⟩])
  | [] => acc

/-- The whole exposure-parsing loop of `Run`, over `c.expose`, starting
from the two empty maps. -/
def parsePortmaps (expose : List String) :
    List String × List (String × List PortBinding) :=
  expose.foldl parseOne ([], [])

/-- One call `Run` makes on the engine, with the arguments it passed. -/
inductive EngineCall where
  | inspectImage (image : String)
  | createContainer (opts : CreateContainerOptions)
  | startContainer (id : String)
  | inspectContainer (id : String)
  deriving DecidableEq, Repr

/-- The `docker.CreateContainerOptions` literal built inside `Run`:
name, config (image, cmd, exposed ports) and host config (port bindings
plus `CapAdd: ["SYS_ADMIN"]`). -/
def mkCreateOpts (c : Container) (cmd : List String) : CreateContainerOptions :=
  let parsed := parsePortmaps c.expose
  { name := c.name
    config := { image := c.image, cmd := cmd, exposedPorts := parsed.1 }
    hostConfig := { portBindings := parsed.2, capAdd := ["SYS_ADMIN"] } }

/-- `Container.Run ctx cmd...`: `ensure` (InspectImage on `c.image`),
parse the exposures, CreateContainer, StartContainer, InspectContainer;
each step returns its error unchanged and aborts the rest. Besides the
Go result `(*Runner, error)` the embedding returns the list of engine
calls performed, in order. -/
def Container.Run (eng : Engine) (c : Container) (cmd : List String) :
    Except GoErr Runner × List EngineCall :=
  match eng.inspectImage c.image with
  | some e => (.error e, [.inspectImage c.image])
  | none =>
    let opts := mkCreateOpts c cmd
    match eng.createContainer opts with
    | .error e => (.error e, [.inspectImage c.image, .createContainer opts])
    | .ok container =>
      match eng.startContainer container.id with
      | some e =>
        (.error e,
         [.inspectImage c.image, .createContainer opts,
          .startContainer container.id])
      | none =>
        match eng.inspectContainer container.id with
        | .error e =>
          (.error e,
           [.inspectImage c.image, .createContainer opts,
            .startContainer container.id, .inspectContainer container.id])
        | .ok cjson =>
          (.ok { container := cjson },
           [.inspectImage c.image, .createContainer opts,
            .startContainer container.id, .inspectContainer container.id])

/-- One call a `Runner` method makes on the engine. -/
inductive RunnerCall where
  | logs (opts : LogsOptions)
  | waitContainer (id : String)
  | stopContainer (id : String) (deadline : Nat)
  | killContainer (id : String)
  | removeContainer (opts : RemoveContainerOptions)
  deriving DecidableEq, Repr

/-- `Runner.Logs ctx stdout stderr`: one follow-mode `Logs` engine call on
the stored container's id. The pair's second component is the runner's
state after the call (the method writes no field). -/
def Runner.Logs (eng : Engine) (r : Runner) (stdout errSink : Nat) :
    Option GoErr × Runner :=
  (eng.logs
    { follow := true, container := r.container.id, stdout := true,
      stderr := true, outputStream := stdout, errorStream := errSink }, r)

/-- `Runner.Wait`: WaitContainer on the stored id; an engine error is
returned unchanged, a non-zero exit code becomes the
`fmt.Errorf("container exited with error code: %d", code)` error, and
code 0 returns nil. Second component: the runner's state after. -/
def Runner.Wait (eng : Engine) (r : Runner) : Option GoErr × Runner :=
  match eng.waitContainer r.container.id with
  | .error e => (some e, r)
  | .ok code =>
    if code ≠ 0 then
      (some (.errorf ("container exited with error code: " ++ toString code)), r)
    else
      (none, r)

/-- Turns a Go `error` result into the list of errors
`multierror.Append` adds for it (nothing for nil, the error otherwise). -/
def errList : Option GoErr → List GoErr
  | none => []
  | some e => [e]

/-- `Runner.Stop killDeadline`: StopContainer, then unconditionally
RemoveContainer with `RemoveVolumes` and `Force` set; each failing step's
error is appended with `multierror.Append` (modelled as the list of
appended errors, `[]` = nil). Also returned: the engine calls in order,
and the runner's state after. -/
def Runner.Stop (eng : Engine) (r : Runner) (killDeadline : Nat) :
    List GoErr × List RunnerCall × Runner :=
  let errs1 := errList (eng.stopContainer r.container.id killDeadline)
  let opts : RemoveContainerOptions :=
    { id := r.container.id, removeVolumes := true, force := true }
  let errs2 := errList (eng.removeContainer opts)
  (errs1 ++ errs2,
   [.stopContainer r.container.id killDeadline, .removeContainer opts], r)

/-- `Runner.Kill`: KillContainer, then unconditionally RemoveContainer
with `RemoveVolumes` and `Force` set, errors aggregated exactly as in
`Stop`. -/
def Runner.Kill (eng : Engine) (r : Runner) :
    List GoErr × List RunnerCall × Runner :=
  let errs1 := errList (eng.killContainer r.container.id)
  let ropts : RemoveContainerOptions :=
    { id := r.container.id, removeVolumes := true, force := true }
  let errs2 := errList (eng.removeContainer ropts)
  (errs1 ++ errs2,
   [.killContainer r.container.id, .removeContainer ropts], r)

/-- The parts of a parsed `*url.URL` that `Check` reads: `u.Scheme`,
`u.Host`, and `u.String()` (the URL re-serialised for `http.Get`). -/
structure URL where
  scheme : String
  host : String
  full : String
  deriving DecidableEq, Repr

/-- The world `Check` runs against: `url.Parse`, the network (attempt-
indexed outcomes of `http.Get` and `net.Dial`; `.error e` is a transport
failure, `.ok c` is a received response resp. established connection
whose `Close` returned `c`), the backoff policy (`nextBackOff n` is the
policy's answer after failed attempt `n`; `none` is `backoff.Stop`,
which `backoff.WithContext` also yields once the context is done), and
the value of `ctx.Err()` when the loop gives up (`none` = nil). -/
structure CheckWorld where
  parseURL : String → Except GoErr URL
  httpGet : String → Nat → Except GoErr (Option GoErr)
  dial : String → String → Nat → Except GoErr (Option GoErr)
  nextBackOff : Nat → Option Nat
  ctxErr : Option GoErr

/-- The `switch u.Scheme` probe of one loop iteration: `http.Get` on the
full URL for schemes `http`/`https`, `net.Dial u.Scheme u.Host`
otherwise. -/
def probeAt (w : CheckWorld) (u : URL) (n : Nat) : Except GoErr (Option GoErr) :=
  if u.scheme = "http" ∨ u.scheme = "https" then
    w.httpGet u.full n
  else
    w.dial u.scheme u.host n

/-- The retry loop of `Check`, starting at attempt `n` with `fuel`
iterations allowed (the Go loop has no bound of its own; `none` means the
fuel ran out before the loop returned). On success the probe's `Close`
result is returned; on failure the backoff policy is consulted, and
`backoff.Stop` returns `ctx.Err()`. The result triple is the returned Go
error value (`none` = nil), the number of probes performed, and the
number of `NextBackOff` consultations. -/
def checkLoop (w : CheckWorld) (u : URL) : Nat → Nat → Option (Option GoErr × Nat × Nat)
  | 0, _ => none
  | fuel + 1, n =>
    match probeAt w u n with
    | .ok closeErr => some (closeErr, 1, 0)
    | .error _ =>
      match w.nextBackOff n with
      | none => some (w.ctxErr, 1, 1)
      | some _ =>
        match checkLoop w u fuel (n + 1) with
        | none => none
        | some (res, p, b) => some (res, p + 1, b + 1)

/-- `Runner.Check ctx addr` (sans the runner state, which it never
reads): parse `addr`, returning a parse error at once, then run the
retry loop from attempt 0. -/
def Check (w : CheckWorld) (fuel : Nat) (addr : String) :
    Option (Option GoErr × Nat × Nat) :=
  match w.parseURL addr with
  | .error e => some (some e, 0, 0)
  | .ok u => checkLoop w u fuel 0

/-- `Runner.Check` as the method on the runner: delegates to `Check`
(the body never reads a field) and leaves the runner unchanged. -/
def Runner.Check (w : CheckWorld) (r : Runner) (fuel : Nat) (addr : String) :
    Option (Option GoErr × Nat × Nat) × Runner :=
  (Dockrun.Check w fuel addr, r)

/-! Concrete engines and worlds used to instantiate the theorems below. -/

/-- An engine whose image inspection fails (image absent) and whose other
operations are immaterial. -/
def engFailInspect : Engine where
  inspectImage := fun _ => some (.engine "no such image")
  createContainer := fun _ => .error (.engine "unreachable")
  startContainer := fun _ => none
  inspectContainer := fun _ => .error (.engine "unreachable")
  waitContainer := fun _ => .ok 0
  stopContainer := fun _ _ => none
  killContainer := fun _ => none
  removeContainer := fun _ => none
  logs := fun _ => none

/-- An engine on which every operation succeeds; created containers get
id `"cid"` and inspection echoes the id back. -/
def engAllOk : Engine where
  inspectImage := fun _ => none
  createContainer := fun _ => .ok { id := "cid" }
  startContainer := fun _ => none
  inspectContainer := fun i => .ok { id := i }
  waitContainer := fun _ => .ok 0
  stopContainer := fun _ _ => none
  killContainer := fun _ => none
  removeContainer := fun _ => none
  logs := fun _ => none

/-- An engine on which every operation fails (e.g. the daemon is gone),
with step-specific messages for the cleanup operations. -/
def engAllFail : Engine where
  inspectImage := fun _ => some (.engine "daemon down")
  createContainer := fun _ => .error (.engine "daemon down")
  startContainer := fun _ => some (.engine "daemon down")
  inspectContainer := fun _ => .error (.engine "daemon down")
  waitContainer := fun _ => .error (.engine "daemon down")
  stopContainer := fun _ _ => some (.engine "stop failed")
  killContainer := fun _ => some (.engine "kill failed")
  removeContainer := fun _ => some (.engine "remove failed")
  logs := fun _ => some (.engine "daemon down")

/-- An engine whose container exits with code 7. -/
def engExit7 : Engine where
  inspectImage := fun _ => none
  createContainer := fun _ => .ok { id := "cid" }
  startContainer := fun _ => none
  inspectContainer := fun i => .ok { id := i }
  waitContainer := fun _ => .ok 7
  stopContainer := fun _ _ => none
  killContainer := fun _ => none
  removeContainer := fun _ => none
  logs := fun _ => none

/-- The parsed form of `"http://localhost:9222"` as `Check` reads it. -/
def urlHttp : URL where
  scheme := "http"
  host := "localhost:9222"
  full := "http://localhost:9222"

/-- A world whose endpoint answers the very first GET. -/
def worldReady : CheckWorld where
  parseURL := fun _ => .ok urlHttp
  httpGet := fun _ _ => .ok none
  dial := fun _ _ _ => .ok none
  nextBackOff := fun _ => some 1
  ctxErr := some (.engine "context deadline exceeded")

/-- A world whose endpoint never answers and whose backoff policy stops
at once (the context is already done). -/
def worldDead : CheckWorld where
  parseURL := fun _ => .ok urlHttp
  httpGet := fun _ _ => .error (.engine "connection refused")
  dial := fun _ _ _ => .error (.engine "connection refused")
  nextBackOff := fun _ => none
  ctxErr := some (.engine "context deadline exceeded")

/-- A world whose URL parser rejects the address. -/
def worldBadURL : CheckWorld where
  parseURL := fun _ => .error (.engine "parse error: invalid URL")
  httpGet := fun _ _ => .ok none
  dial := fun _ _ _ => .ok none
  nextBackOff := fun _ => some 1
  ctxErr := none

end Dockrun

namespace Dockrun

/-! Theorems: the claims, settled against the embedding. -/

/-- C1 counterexample: the exposure string `"1:2:3"` has two colons, yet
`Run`'s parse does not treat it as a single exposed port with no host
binding — it exposes segment 1 (`"2"`) and binds it to host port
segment 0 (`"1"`), because the code's `len(bindings) == 1` test sends
every multi-segment split through the binding branch. -/
theorem parse_exposure_multicolon_cex :
    parsePortmaps ["1:2:3"] =
      (["2"], [("2", [{ hostIP := "0.0.0.0", hostPort := "1" }])]) ∧
    ¬ parsePortmaps ["1:2:3"] = (["1:2:3"], []) := by
  decide

/-- C1 (amended): a string splitting into one colon-delimited segment
(zero colons) yields exactly one exposed port — the string itself — and
no host binding; a string splitting into two or more segments (one or
more colons) yields one exposed port equal to the second segment and one
host binding with host IP `"0.0.0.0"` and host port the first segment,
any further segments being ignored. -/
theorem parse_exposure_amended (s : String) :
    (∀ a, stringsSplitColon s = [a] → parsePortmaps [s] = ([s], [])) ∧
    (∀ a b rest, stringsSplitColon s = a :: b :: rest →
      parsePortmaps [s] =
        ([b], [(b, [{ hostIP := "0.0.0.0", hostPort := a }])])) := by
  constructor
  · intro a h
    simp [parsePortmaps, parseOne, h, setInsert]
  · intro a b rest h
    simp [parsePortmaps, parseOne, h, setInsert, mapAssign]

/-- C1 witness: the amended statement evaluated on `"80"` (zero colons)
and `"8080:80"` (one colon). -/
theorem parse_exposure_amended_witness :
    parsePortmaps ["80"] = (["80"], []) ∧
    parsePortmaps ["8080:80"] =
      (["80"], [("80", [{ hostIP := "0.0.0.0", hostPort := "8080" }])]) :=
  ⟨(parse_exposure_amended "80").1 "80" (by decide),
   (parse_exposure_amended "8080:80").2 "8080" "80" [] (by decide)⟩

/-- C7: `Container image name` returns a fresh spec carrying exactly that
image and name with an empty exposure list (a pure builder — it is not a
function of the engine at all), and `Expose mapping` appends `mapping` to
the end of the exposure list, changes nothing else, and performs no
validation, so chained calls accumulate exposures in call order. -/
theorem container_expose_builder (cl : Client) (i n : String) (c : Container)
    (p a b : String) :
    (cl.Container i n).image = i ∧
    (cl.Container i n).name = n ∧
    (cl.Container i n).expose = [] ∧
    (c.Expose p).image = c.image ∧
    (c.Expose p).name = c.name ∧
    (c.Expose p).expose = c.expose ++ [p] ∧
    (((cl.Container i n).Expose a).Expose b).expose = [a, b] := by
  simp [Client.Container, Container.Expose]

/-- Equation lemma: `Run` on a failing image inspection. -/
theorem run_eq_inspect_fail {eng : Engine} {c : Container} {cmd : List String}
    {e : GoErr} (h1 : eng.inspectImage c.image = some e) :
    c.Run eng cmd = (.error e, [.inspectImage c.image]) := by
  simp [Container.Run, h1]

/-- Equation lemma: `Run` on a failing create. -/
theorem run_eq_create_fail {eng : Engine} {c : Container} {cmd : List String}
    {e : GoErr} (h1 : eng.inspectImage c.image = none)
    (h2 : eng.createContainer (mkCreateOpts c cmd) = .error e) :
    c.Run eng cmd =
      (.error e, [.inspectImage c.image, .createContainer (mkCreateOpts c cmd)]) := by
  simp [Container.Run, mkCreateOpts, h1] at h2 ⊢
  simp [h2]

/-- Equation lemma: `Run` on a failing start. -/
theorem run_eq_start_fail {eng : Engine} {c : Container} {cmd : List String}
    {ctr : DockerContainer} {e : GoErr} (h1 : eng.inspectImage c.image = none)
    (h2 : eng.createContainer (mkCreateOpts c cmd) = .ok ctr)
    (h3 : eng.startContainer ctr.id = some e) :
    c.Run eng cmd =
      (.error e,
       [.inspectImage c.image, .createContainer (mkCreateOpts c cmd),
        .startContainer ctr.id]) := by
  simp [Container.Run, mkCreateOpts, h1] at h2 ⊢
  simp [h2, h3]

/-- Equation lemma: `Run` on a failing post-start container inspection. -/
theorem run_eq_reinspect_fail {eng : Engine} {c : Container} {cmd : List String}
    {ctr : DockerContainer} {e : GoErr} (h1 : eng.inspectImage c.image = none)
    (h2 : eng.createContainer (mkCreateOpts c cmd) = .ok ctr)
    (h3 : eng.startContainer ctr.id = none)
    (h4 : eng.inspectContainer ctr.id = .error e) :
    c.Run eng cmd =
      (.error e,
       [.inspectImage c.image, .createContainer (mkCreateOpts c cmd),
        .startContainer ctr.id, .inspectContainer ctr.id]) := by
  simp [Container.Run, mkCreateOpts, h1] at h2 ⊢
  simp [h2, h3, h4]

/-- Equation lemma: `Run` when every step succeeds. -/
theorem run_eq_ok {eng : Engine} {c : Container} {cmd : List String}
    {ctr cjson : DockerContainer} (h1 : eng.inspectImage c.image = none)
    (h2 : eng.createContainer (mkCreateOpts c cmd) = .ok ctr)
    (h3 : eng.startContainer ctr.id = none)
    (h4 : eng.inspectContainer ctr.id = .ok cjson) :
    c.Run eng cmd =
      (.ok { container := cjson },
       [.inspectImage c.image, .createContainer (mkCreateOpts c cmd),
        .startContainer ctr.id, .inspectContainer ctr.id]) := by
  simp [Container.Run, mkCreateOpts, h1] at h2 ⊢
  simp [h2, h3, h4]

/-- C2: `Run` performs image-inspect, create (with the options built from
the parsed exposures), start, inspect-container, in that fixed order, and
each step is fail-fast: a failing step makes `Run` return that step's
error unchanged with no `Runner`, and the trace shows no later engine
call was made — in particular, a failing image inspection leaves
`[inspectImage]` as the entire trace, so create is never invoked. -/
theorem run_fail_fast (eng : Engine) (c : Container) (cmd : List String) :
    (∀ e, eng.inspectImage c.image = some e →
      c.Run eng cmd = (.error e, [.inspectImage c.image])) ∧
    (eng.inspectImage c.image = none →
      (∀ e, eng.createContainer (mkCreateOpts c cmd) = .error e →
        c.Run eng cmd =
          (.error e,
           [.inspectImage c.image, .createContainer (mkCreateOpts c cmd)])) ∧
      (∀ ctr, eng.createContainer (mkCreateOpts c cmd) = .ok ctr →
        (∀ e, eng.startContainer ctr.id = some e →
          c.Run eng cmd =
            (.error e,
             [.inspectImage c.image, .createContainer (mkCreateOpts c cmd),
              .startContainer ctr.id])) ∧
        (eng.startContainer ctr.id = none →
          (∀ e, eng.inspectContainer ctr.id = .error e →
            c.Run eng cmd =
              (.error e,
               [.inspectImage c.image, .createContainer (mkCreateOpts c cmd),
                .startContainer ctr.id, .inspectContainer ctr.id])) ∧
          (∀ cjson, eng.inspectContainer ctr.id = .ok cjson →
            c.Run eng cmd =
              (.ok { container := cjson },
               [.inspectImage c.image, .createContainer (mkCreateOpts c cmd),
                .startContainer ctr.id, .inspectContainer ctr.id]))))) := by
  exact ⟨fun e h1 => run_eq_inspect_fail h1,
    fun h1 => ⟨fun e h2 => run_eq_create_fail h1 h2,
      fun ctr h2 => ⟨fun e h3 => run_eq_start_fail h1 h2 h3,
        fun h3 => ⟨fun e h4 => run_eq_reinspect_fail h1 h2 h3 h4,
          fun cjson h4 => run_eq_ok h1 h2 h3 h4⟩⟩⟩⟩

/-- C2 witness: on an engine whose image inspection fails, `Run` returns
that error and performed only the inspection. -/
theorem run_fail_fast_witness :
    Container.Run engFailInspect { image := "img", name := "nm", expose := [] } [] =
      (.error (.engine "no such image"), [.inspectImage "img"]) :=
  (run_fail_fast engFailInspect { image := "img", name := "nm", expose := [] } []).1
    (.engine "no such image") rfl

/-- C5: `Stop` and `Kill` each always invoke removal — with
`RemoveVolumes` and `Force` set — right after their primary action
(graceful stop, resp. kill), whatever the primary action returned (the
trace is the same fixed two-call list for every engine); when both the
primary action and removal fail, the aggregated error list contains
exactly both errors in order, and in general the error list is at least
as long as the number of failing steps. -/
theorem stop_kill_cleanup (eng : Engine) (r : Runner) (d : Nat) :
    (Runner.Stop eng r d).2.1 =
      [.stopContainer r.container.id d,
       .removeContainer { id := r.container.id, removeVolumes := true, force := true }] ∧
    (Runner.Kill eng r).2.1 =
      [.killContainer r.container.id,
       .removeContainer { id := r.container.id, removeVolumes := true, force := true }] ∧
    (∀ e1 e2, eng.stopContainer r.container.id d = some e1 →
      eng.removeContainer
          { id := r.container.id, removeVolumes := true, force := true } = some e2 →
      (Runner.Stop eng r d).1 = [e1, e2]) ∧
    (∀ e1 e2, eng.killContainer r.container.id = some e1 →
      eng.removeContainer
          { id := r.container.id, removeVolumes := true, force := true } = some e2 →
      (Runner.Kill eng r).1 = [e1, e2]) ∧
    (Runner.Stop eng r d).1.length ≥
      (errList (eng.stopContainer r.container.id d)).length +
      (errList (eng.removeContainer
        { id := r.container.id, removeVolumes := true, force := true })).length ∧
    (Runner.Kill eng r).1.length ≥
      (errList (eng.killContainer r.container.id)).length +
      (errList (eng.removeContainer
        { id := r.container.id, removeVolumes := true, force := true })).length := by
  refine ⟨rfl, rfl, fun e1 e2 h1 h2 => ?_, fun e1 e2 h1 h2 => ?_, ?_, ?_⟩ <;>
    simp [Runner.Stop, Runner.Kill, errList, *]

/-- C5 witness: on an engine where stop, kill and remove all fail, both
cleanup operations report both of their failures. -/
theorem stop_kill_cleanup_witness :
    (Runner.Stop engAllFail { container := { id := "cid" } } 5).1 =
      [.engine "stop failed", .engine "remove failed"] ∧
    (Runner.Kill engAllFail { container := { id := "cid" } }).1 =
      [.engine "kill failed", .engine "remove failed"] :=
  ⟨(stop_kill_cleanup engAllFail { container := { id := "cid" } } 5).2.2.1
      (.engine "stop failed") (.engine "remove failed") rfl rfl,
   (stop_kill_cleanup engAllFail { container := { id := "cid" } } 5).2.2.2.1
      (.engine "kill failed") (.engine "remove failed") rfl rfl⟩

/-- C6: `Wait` returns nil when the engine reports exit code 0; a
non-zero exit code `n` yields the `fmt.Errorf` error naming code `n`,
which is distinct from every transport (engine-originated) error; and a
transport error from the engine's wait is returned unchanged. -/
theorem wait_exit_codes (eng : Engine) (r : Runner) :
    (eng.waitContainer r.container.id = .ok 0 → (Runner.Wait eng r).1 = none) ∧
    (∀ n : Int, eng.waitContainer r.container.id = .ok n → n ≠ 0 →
      (Runner.Wait eng r).1 =
        some (.errorf ("container exited with error code: " ++ toString n)) ∧
      ∀ s, GoErr.errorf ("container exited with error code: " ++ toString n) ≠
        GoErr.engine s) ∧
    (∀ e, eng.waitContainer r.container.id = .error e →
      (Runner.Wait eng r).1 = some e) := by
  refine ⟨fun h => ?_, fun n h hn => ⟨?_, fun s => ?_⟩, fun e h => ?_⟩ <;>
    simp [Runner.Wait, *]

/-- C6 witness: on an engine whose container exits with code 7, `Wait`
returns the error naming code 7. -/
theorem wait_exit_codes_witness :
    (Runner.Wait engExit7 { container := { id := "cid" } }).1 =
      some (.errorf ("container exited with error code: " ++ toString (7 : Int))) :=
  ((wait_exit_codes engExit7 { container := { id := "cid" } }).2.1 7 rfl
    (by decide)).1

/-- C8: a `Runner`'s stored container descriptor is set exactly once, by
`Run`, to the descriptor the engine's inspect-container returned at
creation, and none of `Logs`, `Check`, `Wait`, `Stop`, `Kill` changes the
runner's state: each returns the runner exactly as it received it. -/
theorem runner_fields_immutable :
    (∀ (eng : Engine) (c : Container) (cmd : List String) (rnr : Runner)
        (tr : List EngineCall),
      c.Run eng cmd = (.ok rnr, tr) →
      ∃ cid, eng.inspectContainer cid = .ok rnr.container) ∧
    (∀ (eng : Engine) (r : Runner) (so se : Nat), (r.Logs eng so se).2 = r) ∧
    (∀ (w : CheckWorld) (r : Runner) (fuel : Nat) (addr : String),
      (r.Check w fuel addr).2 = r) ∧
    (∀ (eng : Engine) (r : Runner), (r.Wait eng).2 = r) ∧
    (∀ (eng : Engine) (r : Runner) (d : Nat), (r.Stop eng d).2.2 = r) ∧
    (∀ (eng : Engine) (r : Runner), (r.Kill eng).2.2 = r) := by
  refine ⟨?_, fun eng r so se => rfl, fun w r fuel addr => rfl, ?_,
    fun eng r d => rfl, fun eng r => rfl⟩
  · intro eng c cmd rnr tr h
    cases hi : eng.inspectImage c.image with
    | some e => rw [run_eq_inspect_fail hi] at h; simp at h
    | none =>
      cases hc : eng.createContainer (mkCreateOpts c cmd) with
      | error e => rw [run_eq_create_fail hi hc] at h; simp at h
      | ok ctr =>
        cases hs : eng.startContainer ctr.id with
        | some e => rw [run_eq_start_fail hi hc hs] at h; simp at h
        | none =>
          cases hj : eng.inspectContainer ctr.id with
          | error e => rw [run_eq_reinspect_fail hi hc hs hj] at h; simp at h
          | ok cjson =>
            rw [run_eq_ok hi hc hs hj] at h
            simp only [Prod.mk.injEq, Except.ok.injEq] at h
            exact ⟨ctr.id, by rw [hj, ← h.1]⟩
  · intro eng r
    unfold Runner.Wait
    cases eng.waitContainer r.container.id
    · rfl
    · simp only
      split <;> rfl

/-- C8 witness: on the all-succeeding engine, `Run`'s runner indeed holds
a descriptor produced by the engine's inspect-container. -/
theorem runner_fields_immutable_witness :
    ∃ cid, engAllOk.inspectContainer cid =
      .ok (Runner.mk { id := "cid" }).container :=
  runner_fields_immutable.1 engAllOk
    { image := "img", name := "nm", expose := [] } []
    { container := { id := "cid" } }
    [.inspectImage "img",
     .createContainer (mkCreateOpts { image := "img", name := "nm", expose := [] } []),
     .startContainer "cid", .inspectContainer "cid"] rfl

/-- C9: every create-container call `Run` makes on the engine — for any
engine, spec and command — passes a host configuration whose added
capabilities are exactly `["SYS_ADMIN"]`. -/
theorem run_capadd_sysadmin (eng : Engine) (c : Container) (cmd : List String)
    (opts : CreateContainerOptions)
    (h : EngineCall.createContainer opts ∈ (c.Run eng cmd).2) :
    opts.hostConfig.capAdd = ["SYS_ADMIN"] := by
  have hopts : (mkCreateOpts c cmd).hostConfig.capAdd = ["SYS_ADMIN"] := rfl
  cases hi : eng.inspectImage c.image with
  | some e => rw [run_eq_inspect_fail hi] at h; simp at h
  | none =>
    cases hc : eng.createContainer (mkCreateOpts c cmd) with
    | error e =>
      rw [run_eq_create_fail hi hc] at h
      simp at h
      rw [h]; exact hopts
    | ok ctr =>
      cases hs : eng.startContainer ctr.id with
      | some e =>
        rw [run_eq_start_fail hi hc hs] at h
        simp at h
        rw [h]; exact hopts
      | none =>
        cases hj : eng.inspectContainer ctr.id with
        | error e =>
          rw [run_eq_reinspect_fail hi hc hs hj] at h
          simp at h
          rw [h]; exact hopts
        | ok cjson =>
          rw [run_eq_ok hi hc hs hj] at h
          simp at h
          rw [h]; exact hopts

/-- C9 witness: on the all-succeeding engine `Run` does reach create, and
that call's options carry `["SYS_ADMIN"]`. -/
theorem run_capadd_sysadmin_witness :
    (mkCreateOpts { image := "img", name := "nm", expose := ["9222:9222"] } []).hostConfig.capAdd =
      ["SYS_ADMIN"] :=
  run_capadd_sysadmin engAllOk { image := "img", name := "nm", expose := ["9222:9222"] } []
    (mkCreateOpts { image := "img", name := "nm", expose := ["9222:9222"] } [])
    (by decide)

/-- Helper: if the first `k` probes starting at attempt `n` fail without
the backoff stopping, and probe `n + k` succeeds with close result `c`,
the loop returns `c` having performed exactly `k + 1` probes and `k`
backoff consultations. -/
theorem checkLoop_first_success (w : CheckWorld) (u : URL) (c : Option GoErr) :
    ∀ k n fuel, k < fuel →
    (∀ m, m < k → ∃ e, probeAt w u (n + m) = .error e) →
    (∀ m, m < k → w.nextBackOff (n + m) ≠ none) →
    probeAt w u (n + k) = .ok c →
    checkLoop w u fuel n = some (c, k + 1, k) := by
  intro k
  induction k with
  | zero =>
    intro n fuel hfuel _ _ hsucc
    rw [Nat.add_zero] at hsucc
    match fuel, hfuel with
    | f + 1, _ => simp [checkLoop, hsucc]
  | succ k ih =>
    intro n fuel hfuel hfail hbo hsucc
    match fuel, hfuel with
    | f + 1, hfuel =>
      obtain ⟨e, he⟩ := hfail 0 (Nat.succ_pos k)
      rw [Nat.add_zero] at he
      have hb := hbo 0 (Nat.succ_pos k)
      rw [Nat.add_zero] at hb
      obtain ⟨d, hd⟩ := Option.ne_none_iff_exists'.mp hb
      have hrec : checkLoop w u f (n + 1) = some (c, k + 1, k) := by
        refine ih (n + 1) f (by omega) (fun m hm => ?_) (fun m hm => ?_) ?_
        · have := hfail (m + 1) (by omega)
          rwa [show n + (m + 1) = n + 1 + m by omega] at this
        · have := hbo (m + 1) (by omega)
          rwa [show n + (m + 1) = n + 1 + m by omega] at this
        · rwa [show n + (k + 1) = n + 1 + k by omega] at hsucc
      simp [checkLoop, he, hd, hrec]

/-- C3: when the address parses to `u` and the probe sequence first
succeeds at attempt `k` (response received and closed cleanly; all
earlier attempts are transport failures the backoff lets through),
`Check` returns successfully having performed exactly `k + 1` probes —
none after the success; and a probe is an `http.Get` of the full URL
precisely when the scheme is `http` or `https`, and otherwise a
`net.Dial` of the scheme and host. -/
theorem check_first_success (w : CheckWorld) (addr : String) (u : URL)
    (k fuel : Nat) (hparse : w.parseURL addr = .ok u) (hfuel : k < fuel)
    (hfail : ∀ m, m < k → ∃ e, probeAt w u m = .error e)
    (hbo : ∀ m, m < k → w.nextBackOff m ≠ none)
    (hsucc : probeAt w u k = .ok none) :
    Check w fuel addr = some (none, k + 1, k) ∧
    (∀ (v : URL) (n : Nat),
      ((v.scheme = "http" ∨ v.scheme = "https") →
        probeAt w v n = w.httpGet v.full n) ∧
      (¬(v.scheme = "http" ∨ v.scheme = "https") →
        probeAt w v n = w.dial v.scheme v.host n)) := by
  constructor
  · rw [Check, hparse]
    exact checkLoop_first_success w u none k 0 fuel hfuel
      (by simpa using hfail) (by simpa using hbo) (by simpa using hsucc)
  · intro v n
    constructor <;> intro hv <;> simp [probeAt, hv]

/-- C3 witness: in a world whose endpoint answers the first GET, `Check`
succeeds after exactly one probe and zero backoff consultations. -/
theorem check_first_success_witness :
    Check worldReady 1 "http://localhost:9222" = some (none, 1, 0) :=
  (check_first_success worldReady "http://localhost:9222" urlHttp 0 1 rfl
    (by decide) (fun m hm => absurd hm (Nat.not_lt_zero m))
    (fun m hm => absurd hm (Nat.not_lt_zero m))
    (by simp [probeAt, worldReady, urlHttp])).1

/-- Helper: if every probe up to and including attempt `n + s` fails and
the backoff policy first signals stop after attempt `n + s`, the loop
returns `ctx.Err()`. -/
theorem checkLoop_gives_up (w : CheckWorld) (u : URL) :
    ∀ s n fuel, s < fuel →
    (∀ m, m ≤ s → ∃ e, probeAt w u (n + m) = .error e) →
    (∀ m, m < s → w.nextBackOff (n + m) ≠ none) →
    w.nextBackOff (n + s) = none →
    checkLoop w u fuel n = some (w.ctxErr, s + 1, s + 1) := by
  intro s
  induction s with
  | zero =>
    intro n fuel hfuel hfail _ hstop
    match fuel, hfuel with
    | f + 1, _ =>
      obtain ⟨e, he⟩ := hfail 0 (Nat.le_refl 0)
      rw [Nat.add_zero] at he hstop
      simp [checkLoop, he, hstop]
  | succ s ih =>
    intro n fuel hfuel hfail hbo hstop
    match fuel, hfuel with
    | f + 1, hfuel =>
      obtain ⟨e, he⟩ := hfail 0 (Nat.zero_le _)
      rw [Nat.add_zero] at he
      have hb := hbo 0 (Nat.succ_pos s)
      rw [Nat.add_zero] at hb
      obtain ⟨d, hd⟩ := Option.ne_none_iff_exists'.mp hb
      have hrec : checkLoop w u f (n + 1) = some (w.ctxErr, s + 1, s + 1) := by
        refine ih (n + 1) f (by omega) (fun m hm => ?_) (fun m hm => ?_) ?_
        · have := hfail (m + 1) (by omega)
          rwa [show n + (m + 1) = n + 1 + m by omega] at this
        · have := hbo (m + 1) (by omega)
          rwa [show n + (m + 1) = n + 1 + m by omega] at this
        · rwa [show n + (s + 1) = n + 1 + s by omega] at hstop
      simp [checkLoop, he, hd, hrec]

/-- C4: when no probe ever succeeds and the retry loop terminates —
`NextBackOff` yielding `backoff.Stop` after attempt `s`, which is what
both an exhausted policy and a cancelled/expired context produce through
`backoff.WithContext` — `Check` returns exactly the context's error
value `ctx.Err()`, not an error of the backoff policy's own. -/
theorem check_returns_ctx_err (w : CheckWorld) (addr : String) (u : URL)
    (s fuel : Nat) (hparse : w.parseURL addr = .ok u) (hfuel : s < fuel)
    (hfail : ∀ m, m ≤ s → ∃ e, probeAt w u m = .error e)
    (hbo : ∀ m, m < s → w.nextBackOff m ≠ none)
    (hstop : w.nextBackOff s = none) :
    Check w fuel addr = some (w.ctxErr, s + 1, s + 1) := by
  rw [Check, hparse]
  exact checkLoop_gives_up w u s 0 fuel hfuel (by simpa using hfail)
    (by simpa using hbo) (by simpa using hstop)

/-- C4 witness: in a world whose endpoint never answers and whose policy
stops at once, `Check` returns the context's error. -/
theorem check_returns_ctx_err_witness :
    Check worldDead 1 "http://localhost:9222" =
      some (some (.engine "context deadline exceeded"), 1, 1) :=
  check_returns_ctx_err worldDead "http://localhost:9222" urlHttp 0 1 rfl
    (by decide) (fun m _ => ⟨.engine "connection refused",
      by simp [probeAt, worldDead, urlHttp]⟩)
    (fun m hm => absurd hm (Nat.not_lt_zero m)) rfl

/-- C10: when the address fails to parse as a URL, `Check` returns the
parse error at once: zero probes are attempted and the backoff policy is
never consulted. -/
theorem check_parse_error (w : CheckWorld) (fuel : Nat) (addr : String)
    (e : GoErr) (h : w.parseURL addr = .error e) :
    Check w fuel addr = some (some e, 0, 0) := by
  rw [Check, h]

/-- C10 witness: a world whose URL parser rejects the address makes
`Check` return that parse error with no probe and no backoff step. -/
theorem check_parse_error_witness :
    Check worldBadURL 9 "http://bad url" =
      some (some (.engine "parse error: invalid URL"), 0, 0) :=
  check_parse_error worldBadURL 9 "http://bad url"
    (.engine "parse error: invalid URL") rfl

end Dockrun
